import Mathlib

/-!
Shallow embedding of the Smart-Document-Processing repository
(`app/utils/file_handlers.py`, `app/services/ai_processor.py`,
`app/services/ocr_service.py`, `app/services/document_processor.py`,
`app/api/endpoints.py`, `app/core/config.py`).

Text and paths are modelled as `List Char` (Python `str`).  External
libraries (PyPDF2, tesseract, transformers, nltk, the regex engine, the
filesystem) are modelled as explicit environment parameters; the
repository's own control flow is translated statement by statement.
-/

namespace SDP

/-- Python `str.lower()` on a string (character-wise lowering). -/
def lowerL (s : List Char) : List Char := s.map Char.toLower

/-- Python `str.strip()`: drop whitespace from both ends. -/
def pyStrip (s : List Char) : List Char :=
  ((s.dropWhile Char.isWhitespace).reverse.dropWhile Char.isWhitespace).reverse

/-- Python `needle in haystack` substring test. -/
def containsSub (pat : List Char) : List Char → Bool
  | [] => pat.isEmpty
  | c :: t => pat.isPrefixOf (c :: t) || containsSub pat t

/-- Python truthiness of an `Optional[str]`: `None` and `""` are falsy. -/
def pyTruthy : Option (List Char) → Bool
  | none => false
  | some s => !s.isEmpty

/-- `os.path.splitext`: split off the extension that starts at the last dot
of the final path component, unless every character of that component in
front of the last dot is itself a dot.  Returns `(root, ext)` with
`root ++ ext` equal to the input. -/
def splitext (l : List Char) : List Char × List Char :=
  let r := l.reverse
  let base := r.takeWhile (fun c => c != '/')
  let i := base.findIdx (fun c => c == '.')
  if i < base.length ∧ (base.drop (i + 1)).any (fun c => c != '.') then
    ((r.drop (i + 1)).reverse, (r.take (i + 1)).reverse)
  else
    (l, [])

/-- `os.path.join(dir, name)` (posix form, as used with one argument pair). -/
def joinPath (dir name : List Char) : List Char :=
  if name.head? = some '/' then name
  else if dir = [] ∨ dir.getLast? = some '/' then dir ++ name
  else dir ++ '/' :: name

/-- Decimal digit list of a natural number, as Python `str(n)` renders it. -/
def natDigits (n : Nat) : List Char :=
  if _h : n < 10 then [Nat.digitChar n]
  else natDigits (n / 10) ++ [Nat.digitChar (n % 10)]
decreasing_by exact Nat.div_lt_self (by omega) (by omega)

theorem natDigits_lt {n : Nat} (h : n < 10) : natDigits n = [Nat.digitChar n] := by
  rw [natDigits]; simp [h]

theorem natDigits_ge {n : Nat} (h : ¬ n < 10) :
    natDigits n = natDigits (n / 10) ++ [Nat.digitChar (n % 10)] := by
  rw [natDigits]; simp [h]

theorem natDigits_ne_nil (n : Nat) : natDigits n ≠ [] := by
  by_cases h : n < 10
  · rw [natDigits_lt h]; simp
  · rw [natDigits_ge h]; simp

theorem digitChar_inj {a b : Nat} (ha : a < 10) (hb : b < 10)
    (h : Nat.digitChar a = Nat.digitChar b) : a = b := by
  interval_cases a <;> interval_cases b <;> first | rfl | (exfalso; revert h; decide)

theorem natDigits_inj : ∀ {m n : Nat}, natDigits m = natDigits n → m = n := by
  intro m
  induction m using Nat.strong_induction_on with
  | _ m ih =>
    intro n h
    by_cases hm : m < 10 <;> by_cases hn : n < 10
    · rw [natDigits_lt hm, natDigits_lt hn] at h
      simp only [List.cons.injEq, and_true] at h
      exact digitChar_inj hm hn h
    · rw [natDigits_lt hm, natDigits_ge hn] at h
      have hlen := congrArg List.length h
      simp only [List.length_singleton, List.length_append] at hlen
      have h2 : 0 < (natDigits (n / 10)).length :=
        List.length_pos.mpr (natDigits_ne_nil _)
      omega
    · rw [natDigits_ge hm, natDigits_lt hn] at h
      have hlen := congrArg List.length h
      simp only [List.length_singleton, List.length_append] at hlen
      have h2 : 0 < (natDigits (m / 10)).length :=
        List.length_pos.mpr (natDigits_ne_nil _)
      omega
    · rw [natDigits_ge hm, natDigits_ge hn] at h
      have hrev := congrArg List.reverse h
      simp only [List.reverse_append, List.reverse_cons, List.reverse_nil,
        List.nil_append, List.cons_append, List.cons.injEq] at hrev
      obtain ⟨hdig, htail⟩ := hrev
      have hmod : m % 10 = n % 10 :=
        digitChar_inj (Nat.mod_lt _ (by omega)) (Nat.mod_lt _ (by omega)) hdig
      have hdivlt : m / 10 < m := Nat.div_lt_self (by omega) (by omega)
      have hdiveq : m / 10 = n / 10 :=
        ih (m / 10) hdivlt (List.reverse_injective htail)
      omega

/-- A raised Python exception, reduced to its message (`str(e)`). -/
structure PyErr where
  msg : List Char
deriving DecidableEq

/-! ### `AIProcessor` (`app/services/ai_processor.py`) -/

def invoiceKeywords : List (List Char) :=
  ["invoice".toList, "bill".toList, "total".toList, "amount due".toList]

def contractKeywords : List (List Char) :=
  ["contract".toList, "agreement".toList, "terms and conditions".toList]

def resumeKeywords : List (List Char) :=
  ["resume".toList, "cv".toList, "experience".toList, "education".toList]

def receiptKeywords : List (List Char) :=
  ["receipt".toList, "payment".toList, "thank you for your purchase".toList]

/-- `any(keyword in text_lower for keyword in kws)`. -/
def anyKeyword (kws : List (List Char)) (textLower : List Char) : Bool :=
  kws.any (fun k => containsSub k textLower)

/-- Outcome of `AIProcessor.classify_document`.  `usedML` instruments whether
the transformers fallback classifier was consulted (it is not part of the
returned dict in the source; it records that the `self.classifier` call ran). -/
structure ClassOut where
  ctype : List Char
  conf : Rat
  usedML : Bool
deriving DecidableEq

/-- `AIProcessor.classify_document`.  `ml` models the transformers
`text-classification` pipeline on the first 512 characters: it returns a
`(label, score)` pair or raises. -/
def classify_document (ml : List Char → Except PyErr (List Char × Rat))
    (text : List Char) : ClassOut :=
  if (pyStrip text).isEmpty then ⟨"unknown".toList, 0, false⟩
  else
    let textLower := lowerL text
    if anyKeyword invoiceKeywords textLower then ⟨"invoice".toList, (0.9 : Rat), false⟩
    else if anyKeyword contractKeywords textLower then ⟨"contract".toList, (0.85 : Rat), false⟩
    else if anyKeyword resumeKeywords textLower then ⟨"resume".toList, (0.8 : Rat), false⟩
    else if anyKeyword receiptKeywords textLower then ⟨"receipt".toList, (0.85 : Rat), false⟩
    else
      match ml (text.take 512) with
      | .ok (label, score) => ⟨label, score, true⟩
      | .error _ => ⟨"other".toList, (0.5 : Rat), true⟩

/-- The fixed `default_patterns` of `AIProcessor.extract_key_value_pairs`
(the regex source strings are carried as data; their matching semantics live
in the `finditer` environment parameter). -/
def default_patterns : List (List Char × List Char) :=
  [("date".toList, "\\d\x7b1,2\x7d[/-]\\d\x7b1,2\x7d[/-]\\d\x7b2,4\x7d".toList),
   ("total".toList, "(?:total|amount due|balance)[:\\s]*[\\$€£]?\\s*[\\d,]+\\.?\\d*".toList),
   ("invoice_number".toList, "(?:invoice|inv)\\.?\\s*#?\\s*[A-Z0-9\\-]+".toList),
   ("tax".toList, "(?:tax|vat|gst)[:\\s]*[\\$€£]?\\s*[\\d,]+\\.?\\d*".toList)]

/-- Python dict assignment `d[k] = v` on an insertion-ordered assoc list. -/
def dictSet (d : List (List Char × List Char)) (k v : List Char) :
    List (List Char × List Char) :=
  if d.any (fun p => p.1 == k) then d.map (fun p => if p.1 == k then (k, v) else p)
  else d ++ [(k, v)]

/-- `AIProcessor.extract_key_value_pairs` with the default patterns.
`finditer pattern text` models `re.finditer(pattern, text, re.IGNORECASE)`
as the list of matched substrings; the loop stores each match under the key,
so the last match of a pattern wins. -/
def extract_key_value_pairs (finditer : List Char → List Char → List (List Char))
    (text : List Char) : List (List Char × List Char) :=
  default_patterns.foldl
    (fun kv kp => (finditer kp.2 text).foldl (fun kv m => dictSet kv kp.1 m) kv) []

/-- `AIProcessor.summarize_text`: `sentTok` models `nltk.sent_tokenize`. -/
def summarize_text (sentTok : List Char → List (List Char))
    (text : List Char) (max_sentences : Nat := 3) : List Char :=
  let sentences := sentTok text
  if sentences.length ≤ max_sentences then text
  else List.intercalate [' '] (sentences.take max_sentences)

/-! ### `FileHandler` (`app/utils/file_handlers.py`) -/

/-- Outcomes of the format-specific extraction helpers (each delegates to an
external library and may raise): `_extract_text_from_pdf`,
`_extract_text_from_docx`, `_extract_text_from_excel`,
`_extract_text_from_csv`, and the plain `open(...).read()` for text files. -/
structure FileEnv where
  pdf : Except PyErr (List Char)
  docx : Except PyErr (List Char)
  excel : Except PyErr (List Char)
  csv : Except PyErr (List Char)
  txtRead : Except PyErr (List Char)

/-- The extension dispatch inside `FileHandler.extract_text` (the body of its
`try:` block): unknown extensions fall through to `return ""`. -/
def dispatchExtract (fe : FileEnv) (ext : List Char) : Except PyErr (List Char) :=
  if ext = ".pdf".toList then fe.pdf
  else if ext = ".docx".toList ∨ ext = ".doc".toList then fe.docx
  else if ext = ".xlsx".toList ∨ ext = ".xls".toList then fe.excel
  else if ext = ".csv".toList then fe.csv
  else if ext = ".txt".toList ∨ ext = ".md".toList then fe.txtRead
  else .ok []

/-- The extensions for which `FileHandler.extract_text` dispatches to a
format-specific extractor. -/
def dispatchedExts : List (List Char) :=
  [".pdf".toList, ".docx".toList, ".doc".toList, ".xlsx".toList, ".xls".toList,
   ".csv".toList, ".txt".toList, ".md".toList]

/-- `FileHandler.extract_text`: dispatch on the lower-cased extension of the
path; the surrounding `except` turns any raised error into `""`. -/
def extract_text (fe : FileEnv) (file_path : List Char) : List Char :=
  match dispatchExtract fe (lowerL (splitext file_path).2) with
  | .ok t => t
  | .error _ => []

/-- The filesystem visible to `FileHandler`: saved paths with their contents
(file bytes abstracted to `List Char`). -/
structure FS where
  files : List (List Char × List Char)
deriving DecidableEq

/-- The set of existing paths (`os.path.exists`). -/
def FS.paths (fs : FS) : List (List Char) := fs.files.map (·.1)

/-- The candidate paths tried by `FileHandler.save_file`: first
`os.path.join(upload_dir, filename)`, then `upload_dir/{name}_{counter}{ext}`
for `counter = 1, 2, ...` with `(name, ext) = os.path.splitext(filename)`. -/
def savePathCand (dir filename : List Char) : Nat → List Char
  | 0 => joinPath dir filename
  | k + 1 =>
    joinPath dir ((splitext filename).1 ++ '_' :: natDigits (k + 1) ++ (splitext filename).2)

/-- The `while os.path.exists(file_path)` loop of `save_file`: starting at
candidate index `k`, return the index of the first candidate not in `taken`.
`fuel` bounds the number of iterations; `taken.length + 1` is always enough
(`firstFreeAux_spec` and the pigeonhole argument below). -/
def firstFreeAux (taken : List (List Char)) (cand : Nat → List Char) :
    Nat → Nat → Nat
  | k, 0 => k
  | k, fuel + 1 => if cand k ∈ taken then firstFreeAux taken cand (k + 1) fuel else k

/-- `FileHandler.save_file`: pick the first collision-free candidate path and
write the content there.  Returns the chosen path and the filesystem after
the write. -/
def save_file (fs : FS) (dir filename content : List Char) : List Char × FS :=
  let cand := savePathCand dir filename
  let idx := firstFreeAux fs.paths cand 0 (fs.paths.length + 1)
  (cand idx, ⟨fs.files ++ [(cand idx, content)]⟩)

/-! ### `DocumentProcessor` (`app/services/document_processor.py`) -/

/-- The four boolean operation flags of `process_document`. -/
structure Flags where
  extract_text : Bool
  perform_ocr : Bool
  extract_entities : Bool
  classify_document : Bool
deriving DecidableEq

/-- The `results` dict built by `process_document` (initialised with
`None`/`[]`/`{}` values; `processing_time` is added at the end on success). -/
structure Results where
  text_content : Option (List Char)
  entities : Option (List (List Char))
  document_type : Option (List Char)
  confidence : Option Rat
  pages : List (Nat × List Char)
  key_value_pairs : List (List Char × List Char)
  summary : Option (List Char)
  processing_time : Option Nat
deriving DecidableEq

def initResults : Results := ⟨none, none, none, none, [], [], none, none⟩

/-- External behaviour surrounding one `process_document` call. -/
structure Env where
  fileEnv : FileEnv
  /-- `open(file_path, "rb").read()` plus `ocr_service.extract_text_from_pdf`:
  the `(page_number, text)` pairs, or a raised exception. -/
  ocrPdf : Except PyErr (List (Nat × List Char))
  /-- `open(file_path, "rb")` plus `ocr_service.extract_text_from_image`. -/
  ocrImage : Except PyErr (List Char)
  /-- The transformers fallback classifier (see `classify_document`). -/
  ml : List Char → Except PyErr (List Char × Rat)
  /-- Net effect of `AIProcessor.extract_entities` (it catches internally). -/
  entities : List Char → List (List Char)
  /-- `re.finditer` match lists (see `extract_key_value_pairs`). -/
  finditer : List Char → List Char → List (List Char)
  /-- `nltk.sent_tokenize`. -/
  sentTok : List Char → List (List Char)
  /-- Wall-clock seconds of the call (`datetime.now() - start_time`). -/
  elapsed : Nat

/-- The text-extraction / OCR-fallback step of `process_document`.  The
second component records whether the OCR service was invoked. -/
def runTextStep (env : Env) (flags : Flags) (filename file_path : List Char)
    (r : Results) : Except PyErr Results × Bool :=
  if flags.extract_text then
    let text_content := extract_text env.fileEnv file_path
    let r := { r with text_content := some text_content }
    if flags.perform_ocr
        || (decide ((pyStrip text_content).length < 50) && flags.extract_text) then
      if ".pdf".toList.isSuffixOf (lowerL filename) then
        match env.ocrPdf with
        | .error e => (.error e, true)
        | .ok pages =>
          (.ok { r with
            pages := pages,
            text_content := some (List.intercalate ['\n'] (pages.map (·.2))) }, true)
      else
        match env.ocrImage with
        | .error e => (.error e, true)
        | .ok ocr_text => (.ok { r with text_content := some ocr_text }, true)
    else (.ok r, false)
  else (.ok r, false)

/-- The classification step of `process_document`. -/
def classifyStep (env : Env) (flags : Flags) (r : Results) : Results :=
  if flags.classify_document && pyTruthy r.text_content then
    let c := classify_document env.ml (r.text_content.getD [])
    { r with document_type := some c.ctype, confidence := some c.conf }
  else r

/-- The document types for which `process_document` additionally extracts
key-value pairs. -/
def structuredTypes : List (List Char) :=
  ["invoice".toList, "receipt".toList, "form".toList]

/-- `results["document_type"] in ["invoice", "receipt", "form"]`. -/
def isStructuredType : Option (List Char) → Bool
  | some t => structuredTypes.contains t
  | none => false

/-- The entity-extraction step of `process_document`.  The second component
records whether `extract_key_value_pairs` was invoked. -/
def entitiesStep (env : Env) (flags : Flags) (r : Results) : Results × Bool :=
  if flags.extract_entities && pyTruthy r.text_content then
    let r := { r with entities := some (env.entities (r.text_content.getD [])) }
    if isStructuredType r.document_type then
      ({ r with key_value_pairs :=
          extract_key_value_pairs env.finditer (r.text_content.getD []) }, true)
    else (r, false)
  else (r, false)

/-- The summarization step of `process_document`. -/
def summaryStep (env : Env) (r : Results) : Results :=
  if pyTruthy r.text_content && decide (500 < (r.text_content.getD []).length) then
    { r with summary := some (summarize_text env.sentTok (r.text_content.getD [])) }
  else r

/-- The body of the `try:` block of `process_document` (everything that can
raise after the document record exists), with instrumentation for whether
OCR and key-value extraction ran. -/
def processBody (env : Env) (flags : Flags) (filename file_path : List Char) :
    Except PyErr Results × Bool × Bool :=
  match runTextStep env flags filename file_path initResults with
  | (.error e, ocrInvoked) => (.error e, ocrInvoked, false)
  | (.ok r, ocrInvoked) =>
    let r := classifyStep env flags r
    let (r, kvInvoked) := entitiesStep env flags r
    let r := summaryStep env r
    let r := { r with processing_time := some env.elapsed }
    (.ok r, ocrInvoked, kvInvoked)

def pendingS : List Char := "pending".toList
def processingS : List Char := "processing".toList
def completedS : List Char := "completed".toList
def failedS : List Char := "failed".toList

/-- A value stored in the document's metadata dict. -/
inductive MVal where
  | nat (n : Nat)
  | str (s : List Char)
  | ops (extract_text perform_ocr extract_entities classify_document : Bool)
deriving DecidableEq

/-- The in-memory document record (`self.documents[document_id]`); the opaque
uuid and the upload timestamp are elided. -/
structure DocRecord where
  filename : List Char
  file_path : List Char
  file_size : Nat
  processing_status : List Char
  document_type : Option (List Char)
  metadata : List (List Char × MVal)
deriving DecidableEq

/-- Everything observable about one `process_document` call: the returned or
raised value, the stored record afterwards, the successive values assigned to
its `processing_status` field, the filesystem afterwards, and the
instrumentation bits. -/
structure ProcOut where
  ret : Except PyErr Results
  doc : DocRecord
  statusTrace : List (List Char)
  fs : FS
  ocrInvoked : Bool
  kvInvoked : Bool

/-- `DocumentProcessor.process_document`: save the file, create the record
with status `"processing"`, run the body; on success set `"completed"` and
the success metadata, on a raised exception set `"failed"`, store the error
message, and re-raise. -/
def process_document (env : Env) (fs : FS) (flags : Flags)
    (filename content dir : List Char) : ProcOut :=
  let saved := save_file fs dir filename content
  let file_path := saved.1
  let fs := saved.2
  let doc0 : DocRecord := ⟨filename, file_path, content.length, processingS, none, []⟩
  match processBody env flags filename file_path with
  | (.ok r, ocrInvoked, kvInvoked) =>
    let doc := { doc0 with
      processing_status := completedS,
      document_type := r.document_type,
      metadata :=
        [("processing_time".toList, MVal.nat env.elapsed),
         ("page_count".toList, MVal.nat r.pages.length),
         ("operations_performed".toList,
          MVal.ops flags.extract_text flags.perform_ocr flags.extract_entities
            flags.classify_document)] }
    ⟨.ok r, doc, [processingS, completedS], fs, ocrInvoked, kvInvoked⟩
  | (.error e, ocrInvoked, kvInvoked) =>
    let doc := { doc0 with
      processing_status := failedS,
      metadata := [("error".toList, MVal.str e.msg)] }
    ⟨.error e, doc, [processingS, failedS], fs, ocrInvoked, kvInvoked⟩

/-! ### Upload endpoint (`app/api/endpoints.py`) and `Settings`
(`app/core/config.py`) -/

def MAX_FILE_SIZE : Nat := 50 * 1024 * 1024

def ALLOWED_EXTENSIONS : List (List Char) :=
  [".pdf".toList, ".docx".toList, ".txt".toList, ".jpg".toList, ".jpeg".toList,
   ".png".toList, ".tiff".toList, ".xlsx".toList, ".csv".toList]

/-- Observable outcome of one call to the `/upload` endpoint. -/
structure UploadOut where
  httpStatus : Nat
  returnedDoc : Option DocRecord
  fs : FS
  store : List DocRecord
  processed : Bool

/-- `upload_document` endpoint: validate the extension, then the size, then
process; a raised processing exception becomes HTTP 500.  `store` is
`processor.documents` (as a list of records). -/
def upload_document (env : Env) (fs : FS) (store : List DocRecord)
    (flags : Flags) (filename content dir : List Char) : UploadOut :=
  let file_ext := lowerL (splitext filename).2
  if file_ext ∉ ALLOWED_EXTENSIONS then ⟨400, none, fs, store, false⟩
  else if MAX_FILE_SIZE < content.length then ⟨400, none, fs, store, false⟩
  else
    let p := process_document env fs flags filename content dir
    match p.ret with
    | .ok _ => ⟨200, some p.doc, p.fs, store ++ [p.doc], true⟩
    | .error _ => ⟨500, none, p.fs, store ++ [p.doc], true⟩

/-! ### Shared concrete environments for witnesses and counterexamples -/

/-- A benign environment: every external call succeeds with empty output. -/
def baseEnv : Env where
  fileEnv := ⟨.ok [], .ok [], .ok [], .ok [], .ok []⟩
  ocrPdf := .ok []
  ocrImage := .ok []
  ml := fun _ => .error ⟨"ml unavailable".toList⟩
  entities := fun _ => []
  finditer := fun _ _ => []
  sentTok := fun _ => []
  elapsed := 0

/-- The endpoint's default flag values. -/
def defaultFlags : Flags := ⟨true, false, false, false⟩

/-! ### Claim theorems -/

/-- Claim C8: `summarize_text` returns its input unchanged whenever the
tokenizer yields at most `max_sentences` sentences, and otherwise returns
exactly the first `max_sentences` sentences (joined with single spaces). -/
theorem c8_summarize_identity_or_take (sentTok : List Char → List (List Char))
    (text : List Char) (max_sentences : Nat) :
    ((sentTok text).length ≤ max_sentences →
      summarize_text sentTok text max_sentences = text) ∧
    (max_sentences < (sentTok text).length →
      summarize_text sentTok text max_sentences =
        List.intercalate [' '] ((sentTok text).take max_sentences)) := by
  constructor
  · intro h
    simp [summarize_text, h]
  · intro h
    simp [summarize_text, Nat.not_le_of_lt h]

/-- Witness for C8 at concrete inputs: a one-sentence text is returned
unchanged for the threshold 3, and a two-sentence text is cut to its first
sentence for the threshold 1. -/
theorem c8_summarize_witness :
    summarize_text (fun t => [t]) "abc".toList 3 = "abc".toList ∧
    summarize_text (fun _ => ["a".toList, "b".toList]) "ab".toList 1 =
      List.intercalate [' '] ([ "a".toList, "b".toList].take 1) := by
  exact ⟨(c8_summarize_identity_or_take (fun t => [t]) "abc".toList 3).1 (by decide),
    (c8_summarize_identity_or_take (fun _ => ["a".toList, "b".toList])
      "ab".toList 1).2 (by decide)⟩

/-- Claim C10: `FileHandler.extract_text` never propagates an error: when the
lower-cased extension is outside the dispatched set, or when the dispatched
extractor raises, the result is the empty string (and the Lean embedding is a
total function, so it returns a string on every input). -/
theorem c10_extract_text_total (fe : FileEnv) (file_path : List Char)
    (h : lowerL (splitext file_path).2 ∉ dispatchedExts ∨
      ∃ e, dispatchExtract fe (lowerL (splitext file_path).2) = .error e) :
    extract_text fe file_path = [] := by
  rcases h with h | ⟨e, he⟩
  · simp only [dispatchedExts, List.mem_cons, List.not_mem_nil, or_false,
      not_or] at h
    obtain ⟨h1, h2, h3, h4, h5, h6, h7, h8⟩ := h
    have hd : dispatchExtract fe (lowerL (splitext file_path).2) = .ok [] := by
      rw [dispatchExtract, if_neg h1, if_neg (not_or.mpr ⟨h2, h3⟩),
        if_neg (not_or.mpr ⟨h4, h5⟩), if_neg h6, if_neg (not_or.mpr ⟨h7, h8⟩)]
    simp [extract_text, hd]
  · simp [extract_text, he]

/-- Witness for C10: a `.xyz` file (outside the dispatch set) yields `""`,
and a `.pdf` file whose PDF extractor raises also yields `""`. -/
theorem c10_extract_text_total_witness :
    extract_text baseEnv.fileEnv "notes.xyz".toList = [] ∧
    extract_text ⟨.error ⟨"bad pdf".toList⟩, .ok [], .ok [], .ok [], .ok []⟩
      "doc.pdf".toList = [] := by
  exact ⟨c10_extract_text_total baseEnv.fileEnv "notes.xyz".toList
      (Or.inl (by decide)),
    c10_extract_text_total ⟨.error ⟨"bad pdf".toList⟩, .ok [], .ok [], .ok [], .ok []⟩
      "doc.pdf".toList (Or.inr ⟨⟨"bad pdf".toList⟩, rfl⟩)⟩

/-- Claim C6: an upload whose lower-cased extension is not in
`ALLOWED_EXTENSIONS` is answered with HTTP 400 before any processing: no
file is saved, no record is created, and `process_document` is not run. -/
theorem c6_reject_bad_extension (env : Env) (fs : FS) (store : List DocRecord)
    (flags : Flags) (filename content dir : List Char)
    (h : lowerL (splitext filename).2 ∉ ALLOWED_EXTENSIONS) :
    (upload_document env fs store flags filename content dir).httpStatus = 400 ∧
    (upload_document env fs store flags filename content dir).processed = false ∧
    (upload_document env fs store flags filename content dir).fs = fs ∧
    (upload_document env fs store flags filename content dir).store = store := by
  simp [upload_document, h]

/-- Witness for C6: uploading `malware.exe` is rejected with 400 and leaves
the filesystem and the document store untouched. -/
theorem c6_reject_bad_extension_witness :
    (upload_document baseEnv ⟨[]⟩ [] defaultFlags "malware.exe".toList [] []).httpStatus = 400 ∧
    (upload_document baseEnv ⟨[]⟩ [] defaultFlags "malware.exe".toList [] []).processed = false ∧
    (upload_document baseEnv ⟨[]⟩ [] defaultFlags "malware.exe".toList [] []).fs = ⟨[]⟩ ∧
    (upload_document baseEnv ⟨[]⟩ [] defaultFlags "malware.exe".toList [] []).store = [] :=
  c6_reject_bad_extension baseEnv ⟨[]⟩ [] defaultFlags "malware.exe".toList [] []
    (by decide)

/-- Claim C7: an upload whose size exceeds `MAX_FILE_SIZE` (50 MB) is
answered with HTTP 400 before any processing: no file is saved, no record is
created, and `process_document` is not run. -/
theorem c7_reject_oversized (env : Env) (fs : FS) (store : List DocRecord)
    (flags : Flags) (filename content dir : List Char)
    (h : MAX_FILE_SIZE < content.length) :
    (upload_document env fs store flags filename content dir).httpStatus = 400 ∧
    (upload_document env fs store flags filename content dir).processed = false ∧
    (upload_document env fs store flags filename content dir).fs = fs ∧
    (upload_document env fs store flags filename content dir).store = store := by
  by_cases hext : lowerL (splitext filename).2 ∈ ALLOWED_EXTENSIONS
  · simp [upload_document, hext, h]
  · simp [upload_document, hext]

/-- Witness for C7: a 50 MB + 1 byte `.txt` upload is rejected with 400 and
leaves the filesystem and the document store untouched. -/
theorem c7_reject_oversized_witness :
    (upload_document baseEnv ⟨[]⟩ [] defaultFlags "big.txt".toList
      (List.replicate (MAX_FILE_SIZE + 1) 'a') []).httpStatus = 400 ∧
    (upload_document baseEnv ⟨[]⟩ [] defaultFlags "big.txt".toList
      (List.replicate (MAX_FILE_SIZE + 1) 'a') []).processed = false ∧
    (upload_document baseEnv ⟨[]⟩ [] defaultFlags "big.txt".toList
      (List.replicate (MAX_FILE_SIZE + 1) 'a') []).fs = ⟨[]⟩ ∧
    (upload_document baseEnv ⟨[]⟩ [] defaultFlags "big.txt".toList
      (List.replicate (MAX_FILE_SIZE + 1) 'a') []).store = [] :=
  c7_reject_oversized baseEnv ⟨[]⟩ [] defaultFlags "big.txt".toList
    (List.replicate (MAX_FILE_SIZE + 1) 'a') []
    (by rw [List.length_replicate]; omega)

/-- Spec-side rule table for classification: the fixed priority order
invoice (0.9), contract (0.85), resume (0.8), receipt (0.85), each with its
keyword list. -/
def keywordRules : List (List Char × Rat × List (List Char)) :=
  [("invoice".toList, (0.9 : Rat), invoiceKeywords),
   ("contract".toList, (0.85 : Rat), contractKeywords),
   ("resume".toList, (0.8 : Rat), resumeKeywords),
   ("receipt".toList, (0.85 : Rat), receiptKeywords)]

/-- Spec-side reading of "first matching rule wins": the first rule of
`keywordRules` with a keyword occurring in the lower-cased text. -/
def firstRuleMatch (textLower : List Char) : Option (List Char × Rat) :=
  (keywordRules.find? (fun rule => anyKeyword rule.2.2 textLower)).map
    (fun rule => (rule.1, rule.2.1))

/-- Claim C3: `classify_document` realises the rule table `keywordRules` in
its fixed priority order — on non-blank text it returns exactly the type and
confidence of the first rule with a matching keyword (so when several types
match, the highest-priority one wins), and the ML fallback classifier is
consulted only when no keyword of any rule matches. -/
theorem classify_document_eq (ml : List Char → Except PyErr (List Char × Rat))
    (text : List Char) (h0 : (pyStrip text).isEmpty = false) :
    classify_document ml text =
      (match firstRuleMatch (lowerL text) with
      | some (t, c) => ClassOut.mk t c false
      | none =>
        match ml (text.take 512) with
        | .ok (label, score) => ⟨label, score, true⟩
        | .error _ => ⟨"other".toList, (0.5 : Rat), true⟩) := by
  simp only [classify_document, h0, Bool.false_eq_true, if_false]
  by_cases h1 : anyKeyword invoiceKeywords (lowerL text) <;>
    by_cases h2 : anyKeyword contractKeywords (lowerL text) <;>
      by_cases h3 : anyKeyword resumeKeywords (lowerL text) <;>
        by_cases h4 : anyKeyword receiptKeywords (lowerL text) <;>
          simp [firstRuleMatch, keywordRules, h1, h2, h3, h4]

theorem c3_classification_priority (ml : List Char → Except PyErr (List Char × Rat))
    (text : List Char) :
    (∀ t c, firstRuleMatch (lowerL text) = some (t, c) →
      (pyStrip text).isEmpty = false →
      classify_document ml text = ⟨t, c, false⟩) ∧
    ((classify_document ml text).usedML = true →
      firstRuleMatch (lowerL text) = none) := by
  constructor
  · intro t c hfr h0
    rw [classify_document_eq ml text h0, hfr]
  · intro hml
    by_cases h0 : (pyStrip text).isEmpty
    · rw [classify_document, if_pos (by simpa using h0)] at hml
      exact absurd hml (by simp)
    · have h0' : (pyStrip text).isEmpty = false := by simpa using h0
      rw [classify_document_eq ml text h0'] at hml
      cases hfr : firstRuleMatch (lowerL text) with
      | none => rfl
      | some p =>
        rw [hfr] at hml
        obtain ⟨t, c⟩ := p
        exact absurd hml (by simp)

/-- Witness for C3: `"Total: 5"` matches the invoice keyword `"total"` and is
classified as invoice with confidence 0.9 without consulting the ML model,
and on keyword-free text a consulted ML model implies an empty rule match. -/
theorem c3_classification_priority_witness :
    classify_document baseEnv.ml "Total: 5".toList =
      ⟨"invoice".toList, (0.9 : Rat), false⟩ ∧
    firstRuleMatch (lowerL "zzzz".toList) = none := by
  exact ⟨(c3_classification_priority baseEnv.ml "Total: 5".toList).1
      "invoice".toList (0.9 : Rat) rfl (by decide),
    (c3_classification_priority baseEnv.ml "zzzz".toList).2 rfl⟩


theorem runTextStep_snd (env : Env) (flags : Flags)
    (filename file_path : List Char) (r : Results) :
    (runTextStep env flags filename file_path r).2 =
      (flags.extract_text && (flags.perform_ocr ||
        decide ((pyStrip (extract_text env.fileEnv file_path)).length < 50))) := by
  unfold runTextStep
  by_cases het : flags.extract_text
  · simp only [het, if_true, Bool.true_and, Bool.and_true, eq_self_iff_true]
    by_cases hc : (flags.perform_ocr ||
        decide ((pyStrip (extract_text env.fileEnv file_path)).length < 50)) = true
    · rw [if_pos hc, hc]
      split
      · cases env.ocrPdf <;> rfl
      · cases env.ocrImage <;> rfl
    · rw [if_neg hc]
      simp only [Bool.not_eq_true] at hc
      exact hc.symm
  · simp only [Bool.not_eq_true] at het
    simp [het]

theorem processBody_ocrInvoked (env : Env) (flags : Flags)
    (filename file_path : List Char) :
    (processBody env flags filename file_path).2.1 =
      (flags.extract_text && (flags.perform_ocr ||
        decide ((pyStrip (extract_text env.fileEnv file_path)).length < 50))) := by
  rw [← runTextStep_snd env flags filename file_path initResults]
  unfold processBody
  rcases h : runTextStep env flags filename file_path initResults with ⟨ret, b⟩
  cases ret <;> simp

/-- Counterexample to C2 as stated: the stored document's status is never
`"pending"` — the record is created directly with status `"processing"`. -/
theorem c2_counterexample :
    ¬ (∀ (env : Env) (fs : FS) (flags : Flags) (filename content dir : List Char),
        ((process_document env fs flags filename content dir).statusTrace).head? =
          some pendingS) := by
  intro h
  have h2 := h baseEnv ⟨[]⟩ ⟨false, false, false, false⟩ "a.txt".toList [] []
  have h3 : ((process_document baseEnv ⟨[]⟩ ⟨false, false, false, false⟩
      "a.txt".toList [] []).statusTrace).head? = some processingS := by decide
  exact absurd (h3.symm.trans h2) (by decide)

/-- Claim C2 (amended): within one `process_document` call the stored
document's status is assigned exactly twice: it is `"processing"` on creation
(never `"pending"`), and exactly one terminal transition follows —
`"completed"` when the call returns normally, `"failed"` when it raises. -/
theorem c2_status_trace_amended (env : Env) (fs : FS) (flags : Flags)
    (filename content dir : List Char) :
    ((process_document env fs flags filename content dir).statusTrace =
        [processingS, completedS] ∧
      ∃ r, (process_document env fs flags filename content dir).ret = .ok r) ∨
    ((process_document env fs flags filename content dir).statusTrace =
        [processingS, failedS] ∧
      ∃ e, (process_document env fs flags filename content dir).ret = .error e) := by
  simp only [process_document]
  rcases h : processBody env flags filename (save_file fs dir filename content).1 with
    ⟨ret, ocr, kv⟩
  cases ret with
  | ok r => exact Or.inl ⟨rfl, r, rfl⟩
  | error e => exact Or.inr ⟨rfl, e, rfl⟩

/-- Counterexample to C1 as stated: an explicit OCR request does not trigger
OCR regardless of the other flags — with `extract_text = false` and
`perform_ocr = true` the OCR service is never invoked, because the whole OCR
fallback is nested inside the `if extract_text:` branch. -/
theorem c1_counterexample :
    ¬ (∀ (env : Env) (fs : FS) (flags : Flags) (filename content dir : List Char),
        flags.perform_ocr = true →
        (process_document env fs flags filename content dir).ocrInvoked = true) := by
  intro h
  have h2 := h baseEnv ⟨[]⟩ ⟨false, true, false, false⟩ "scan.pdf".toList [] [] rfl
  have h3 : (process_document baseEnv ⟨[]⟩ ⟨false, true, false, false⟩
      "scan.pdf".toList [] []).ocrInvoked = false := by decide
  rw [h3] at h2
  exact Bool.noConfusion h2

/-- Claim C1 (amended): the OCR fallback runs exactly when text extraction is
enabled and, in addition, either OCR is explicitly requested or the extracted
text stripped of surrounding whitespace has fewer than 50 characters.  (The
claim's "regardless of the other flags" fails: `extract_text = false`
suppresses OCR even when it is explicitly requested.) -/
theorem c1_ocr_trigger_amended (env : Env) (fs : FS) (flags : Flags)
    (filename content dir : List Char) :
    (process_document env fs flags filename content dir).ocrInvoked =
      (flags.extract_text && (flags.perform_ocr ||
        decide ((pyStrip (extract_text env.fileEnv
          (save_file fs dir filename content).1)).length < 50))) := by
  rw [← processBody_ocrInvoked env flags filename (save_file fs dir filename content).1]
  simp only [process_document]
  rcases h : processBody env flags filename (save_file fs dir filename content).1 with
    ⟨ret, ocr, kv⟩
  cases ret <;> simp

/-- Claim C4: if processing raises after the document record exists (the body
of the `try:` fails with exception `e`), the record's status becomes
`"failed"`, the error message is stored under the `"error"` metadata key, the
exception is re-raised to the caller, and the upload endpoint (for a request
that passed validation) surfaces it as a generic HTTP 500; no retry occurs. -/
theorem c4_failure_handling (env : Env) (fs : FS) (flags : Flags)
    (filename content dir : List Char) (e : PyErr)
    (h : (processBody env flags filename (save_file fs dir filename content).1).1 =
      .error e) :
    (process_document env fs flags filename content dir).doc.processing_status =
        failedS ∧
    (process_document env fs flags filename content dir).doc.metadata =
        [("error".toList, MVal.str e.msg)] ∧
    (process_document env fs flags filename content dir).ret = .error e ∧
    ∀ store, lowerL (splitext filename).2 ∈ ALLOWED_EXTENSIONS →
      content.length ≤ MAX_FILE_SIZE →
      (upload_document env fs store flags filename content dir).httpStatus = 500 := by
  rcases hpb : processBody env flags filename (save_file fs dir filename content).1 with
    ⟨ret, ocr, kv⟩
  rw [hpb] at h
  simp only at h
  subst h
  have hret : (process_document env fs flags filename content dir).ret = .error e := by
    simp only [process_document]
    rw [hpb]
  refine ⟨?_, ?_, hret, ?_⟩
  · simp only [process_document]
    rw [hpb]
  · simp only [process_document]
    rw [hpb]
  · intro store hext hsize
    simp only [upload_document]
    rw [if_neg (not_not_intro hext), if_neg (Nat.not_lt.mpr hsize), hret]

/-- Witness for C4: a `.png` upload with `perform_ocr = true` whose OCR
engine raises `"ocr failed"` ends with a failed record, the stored error
message, a re-raised exception, and HTTP 500 from the endpoint. -/
theorem c4_failure_handling_witness :
    (process_document { baseEnv with ocrImage := .error ⟨"ocr failed".toList⟩ }
      ⟨[]⟩ ⟨true, true, false, false⟩ "scan.png".toList [] []).doc.processing_status =
        failedS ∧
    (process_document { baseEnv with ocrImage := .error ⟨"ocr failed".toList⟩ }
      ⟨[]⟩ ⟨true, true, false, false⟩ "scan.png".toList [] []).doc.metadata =
        [("error".toList, MVal.str "ocr failed".toList)] ∧
    (process_document { baseEnv with ocrImage := .error ⟨"ocr failed".toList⟩ }
      ⟨[]⟩ ⟨true, true, false, false⟩ "scan.png".toList [] []).ret =
        .error ⟨"ocr failed".toList⟩ ∧
    ∀ store, lowerL (splitext "scan.png".toList).2 ∈ ALLOWED_EXTENSIONS →
      ([] : List Char).length ≤ MAX_FILE_SIZE →
      (upload_document { baseEnv with ocrImage := .error ⟨"ocr failed".toList⟩ }
        ⟨[]⟩ store ⟨true, true, false, false⟩ "scan.png".toList [] []).httpStatus = 500 :=
  c4_failure_handling { baseEnv with ocrImage := .error ⟨"ocr failed".toList⟩ }
    ⟨[]⟩ ⟨true, true, false, false⟩ "scan.png".toList [] [] ⟨"ocr failed".toList⟩ rfl

theorem classifyStep_fields (env : Env) (flags : Flags) (r : Results) :
    (classifyStep env flags r).text_content = r.text_content ∧
    (classifyStep env flags r).key_value_pairs = r.key_value_pairs := by
  unfold classifyStep
  split <;> simp

theorem summaryStep_fields (env : Env) (r : Results) :
    (summaryStep env r).text_content = r.text_content ∧
    (summaryStep env r).document_type = r.document_type ∧
    (summaryStep env r).key_value_pairs = r.key_value_pairs := by
  unfold summaryStep
  split <;> simp

theorem entitiesStep_spec (env : Env) (flags : Flags) (r : Results) :
    (entitiesStep env flags r).2 =
      (flags.extract_entities && pyTruthy r.text_content &&
        isStructuredType r.document_type) ∧
    (entitiesStep env flags r).1.text_content = r.text_content ∧
    (entitiesStep env flags r).1.document_type = r.document_type ∧
    ((entitiesStep env flags r).2 = false →
      (entitiesStep env flags r).1.key_value_pairs = r.key_value_pairs) ∧
    ((entitiesStep env flags r).2 = true →
      (entitiesStep env flags r).1.key_value_pairs =
        extract_key_value_pairs env.finditer (r.text_content.getD [])) := by
  unfold entitiesStep
  by_cases h1 : (flags.extract_entities && pyTruthy r.text_content) = true
  · rw [if_pos h1]
    by_cases h2 : isStructuredType r.document_type = true
    · rw [if_pos h2]
      simp [h1, h2]
    · rw [if_neg h2]
      simp only [Bool.not_eq_true] at h2
      simp [h1, h2]
  · rw [if_neg h1]
    simp only [Bool.not_eq_true] at h1
    simp [h1]

theorem runTextStep_ok_kvp {env : Env} {flags : Flags} {fn path : List Char}
    {r0 r1 : Results} {b : Bool}
    (h : runTextStep env flags fn path r0 = (.ok r1, b)) :
    r1.key_value_pairs = r0.key_value_pairs := by
  unfold runTextStep at h
  simp only [] at h
  iterate 6 (all_goals (try split at h))
  all_goals (simp only [Prod.mk.injEq, Except.ok.injEq, reduceCtorEq, false_and] at h)
  all_goals (obtain ⟨h1, h2⟩ := h; subst h1; rfl)

theorem process_document_ret_kv (env : Env) (fs : FS) (flags : Flags)
    (filename content dir : List Char) :
    (process_document env fs flags filename content dir).ret =
      (processBody env flags filename (save_file fs dir filename content).1).1 ∧
    (process_document env fs flags filename content dir).kvInvoked =
      (processBody env flags filename (save_file fs dir filename content).1).2.2 := by
  simp only [process_document]
  rcases h : processBody env flags filename (save_file fs dir filename content).1 with
    ⟨ret, ocr, kv⟩
  cases ret <;> simp

theorem processBody_kv_spec (env : Env) (flags : Flags) (fn path : List Char)
    (r : Results) (h : (processBody env flags fn path).1 = .ok r) :
    (processBody env flags fn path).2.2 =
      (flags.extract_entities && pyTruthy r.text_content &&
        isStructuredType r.document_type) ∧
    ((processBody env flags fn path).2.2 = false → r.key_value_pairs = []) ∧
    ((processBody env flags fn path).2.2 = true →
      r.key_value_pairs = extract_key_value_pairs env.finditer
        (r.text_content.getD [])) := by
  unfold processBody at h ⊢
  obtain ⟨ret1, b, hts⟩ : ∃ ret1 b, runTextStep env flags fn path initResults = (ret1, b) :=
    ⟨_, _, rfl⟩
  rw [hts] at h ⊢
  cases ret1 with
  | error e => simp at h
  | ok r1 =>
    simp only [] at h ⊢
    obtain ⟨r3, kv, hes⟩ :
        ∃ r3 kv, entitiesStep env flags (classifyStep env flags r1) = (r3, kv) :=
      ⟨_, _, rfl⟩
    rw [hes] at h ⊢
    simp only [Except.ok.injEq] at h
    subst h
    have hcf := classifyStep_fields env flags r1
    have hsf := summaryStep_fields env r3
    have hee := entitiesStep_spec env flags (classifyStep env flags r1)
    rw [hes] at hee
    simp only at hee ⊢
    obtain ⟨hkv, htc, hdt, hfalse, htrue⟩ := hee
    have hkvp0 : r1.key_value_pairs = ([] : List (List Char × List Char)) :=
      runTextStep_ok_kvp hts
    refine ⟨?_, ?_, ?_⟩
    · rw [hkv, hsf.1, hsf.2.1, htc, hdt]
    · intro hf
      rw [hsf.2.2, hfalse hf, hcf.2, hkvp0]
    · intro ht
      rw [hsf.2.2, htrue ht, hsf.1, htc]

/-- A demo environment in which `.txt` extraction yields a long invoice-like
text (62 characters, so the OCR fallback stays off). -/
def kvDemoText : List Char :=
  "invoice number 12345 for consulting services rendered in june".toList

def kvDemoEnv : Env :=
  { baseEnv with fileEnv := { baseEnv.fileEnv with txtRead := Except.ok kvDemoText } }

/-- Counterexample to C9 as stated: a document classified as invoice does not
always get key-value extraction — with `extract_entities = false` the
key-value step is skipped even though the classification is `"invoice"`. -/
theorem c9_counterexample :
    ¬ (∀ (env : Env) (fs : FS) (flags : Flags) (filename content dir : List Char),
        isStructuredType
            (process_document env fs flags filename content dir).doc.document_type =
          true →
        (process_document env fs flags filename content dir).kvInvoked = true) := by
  intro h
  have h2 := h kvDemoEnv ⟨[]⟩ ⟨true, false, false, true⟩ "doc.txt".toList [] []
    (by decide)
  have h3 : (process_document kvDemoEnv ⟨[]⟩ ⟨true, false, false, true⟩
      "doc.txt".toList [] []).kvInvoked = false := by decide
  rw [h3] at h2
  exact Bool.noConfusion h2

/-- Claim C9 (amended): for a successfully processed document, key-value
extraction of the fixed fields runs exactly when entity extraction was
requested, the text content is non-empty, and the classification result is
invoice, receipt or form; whenever it does not run the `key_value_pairs`
result stays the empty map, and when it runs it equals the
`extract_key_value_pairs` output on the text. -/
theorem c9_kv_gating_amended (env : Env) (fs : FS) (flags : Flags)
    (filename content dir : List Char) (r : Results)
    (hok : (process_document env fs flags filename content dir).ret = .ok r) :
    (process_document env fs flags filename content dir).kvInvoked =
      (flags.extract_entities && pyTruthy r.text_content &&
        isStructuredType r.document_type) ∧
    ((process_document env fs flags filename content dir).kvInvoked = false →
      r.key_value_pairs = []) ∧
    ((process_document env fs flags filename content dir).kvInvoked = true →
      r.key_value_pairs =
        extract_key_value_pairs env.finditer (r.text_content.getD [])) := by
  obtain ⟨hret, hkv⟩ := process_document_ret_kv env fs flags filename content dir
  rw [hret] at hok
  have hs := processBody_kv_spec env flags filename
    (save_file fs dir filename content).1 r hok
  rw [hkv]
  exact hs

/-- Witness for C9 (amended) at a concrete input: with all flags off the call
succeeds, key-value extraction does not run, and the key-value map is empty. -/
theorem c9_kv_gating_amended_witness :
    (process_document baseEnv ⟨[]⟩ ⟨false, false, false, false⟩
        "a.txt".toList [] []).kvInvoked =
      (false && pyTruthy (none : Option (List Char)) && isStructuredType none) ∧
    ((process_document baseEnv ⟨[]⟩ ⟨false, false, false, false⟩
        "a.txt".toList [] []).kvInvoked = false →
      (⟨none, none, none, none, [], [], none, some 0⟩ : Results).key_value_pairs = []) ∧
    ((process_document baseEnv ⟨[]⟩ ⟨false, false, false, false⟩
        "a.txt".toList [] []).kvInvoked = true →
      (⟨none, none, none, none, [], [], none, some 0⟩ : Results).key_value_pairs =
        extract_key_value_pairs baseEnv.finditer
          ((none : Option (List Char)).getD [])) :=
  c9_kv_gating_amended baseEnv ⟨[]⟩ ⟨false, false, false, false⟩ "a.txt".toList [] []
    ⟨none, none, none, none, [], [], none, some 0⟩ rfl

theorem firstFreeAux_spec (taken : List (List Char)) (cand : Nat → List Char) :
    ∀ fuel k, (∃ m, m < fuel ∧ cand (k + m) ∉ taken) →
      cand (firstFreeAux taken cand k fuel) ∉ taken ∧
      k ≤ firstFreeAux taken cand k fuel ∧
      ∀ j, k ≤ j → j < firstFreeAux taken cand k fuel → cand j ∈ taken := by
  intro fuel
  induction fuel with
  | zero =>
    intro k h
    obtain ⟨m, hm, _⟩ := h
    omega
  | succ fuel ih =>
    intro k h
    obtain ⟨m, hm, hfree⟩ := h
    by_cases hk : cand k ∈ taken
    · have hstep : firstFreeAux taken cand k (fuel + 1) =
          firstFreeAux taken cand (k + 1) fuel := by
        simp only [firstFreeAux]
        rw [if_pos hk]
      obtain ⟨m2, hm2, hfree2⟩ : ∃ m2, m2 < fuel ∧ cand (k + 1 + m2) ∉ taken := by
        cases m with
        | zero => exact absurd hk (by simpa using hfree)
        | succ m =>
          refine ⟨m, by omega, ?_⟩
          have harith : k + 1 + m = k + (m + 1) := by omega
          rw [harith]
          exact hfree
      have h3 := ih (k + 1) ⟨m2, hm2, hfree2⟩
      rw [hstep]
      refine ⟨h3.1, by omega, ?_⟩
      intro j hj1 hj2
      rcases Nat.lt_or_ge j (k + 1) with hj | hj
      · have hjk : j = k := by omega
        rw [hjk]
        exact hk
      · exact h3.2.2 j hj hj2
    · have hstep : firstFreeAux taken cand k (fuel + 1) = k := by
        simp only [firstFreeAux]
        rw [if_neg hk]
      rw [hstep]
      exact ⟨hk, Nat.le_refl _,
        fun j h1 h2 => absurd (Nat.lt_of_le_of_lt h1 h2) (Nat.lt_irrefl k)⟩

theorem exists_free_cand (taken : List (List Char)) (cand : Nat → List Char)
    (hinj : Function.Injective cand) :
    ∃ m, m < taken.length + 1 ∧ cand m ∉ taken := by
  by_contra hcon
  push_neg at hcon
  have hsub : (Finset.range (taken.length + 1)).image cand ⊆ taken.toFinset := by
    intro x hx
    rw [Finset.mem_image] at hx
    obtain ⟨m, hm, rfl⟩ := hx
    rw [Finset.mem_range] at hm
    exact List.mem_toFinset.mpr (hcon m hm)
  have hcard := Finset.card_le_card hsub
  rw [Finset.card_image_of_injective _ hinj, Finset.card_range] at hcard
  have hle := taken.toFinset_card_le
  omega

theorem joinPath_inj {dir a b : List Char}
    (hiff : a.head? = some '/' ↔ b.head? = some '/')
    (h : joinPath dir a = joinPath dir b) : a = b := by
  unfold joinPath at h
  by_cases ha : a.head? = some '/'
  · rw [if_pos ha, if_pos (hiff.mp ha)] at h
    exact h
  · rw [if_neg ha, if_neg (fun hb => ha (hiff.mpr hb))] at h
    by_cases hd : dir = [] ∨ dir.getLast? = some '/'
    · rw [if_pos hd, if_pos hd] at h
      exact List.append_cancel_left h
    · rw [if_neg hd, if_neg hd] at h
      have h2 := List.append_cancel_left h
      simpa using h2

theorem splitext_append (l : List Char) : (splitext l).1 ++ (splitext l).2 = l := by
  unfold splitext
  simp only []
  split
  · rw [← List.reverse_append, List.take_append_drop, List.reverse_reverse]
  · simp

theorem take_takeWhile_sat {p : Char → Bool} :
    ∀ (r : List Char) (n : Nat), n ≤ (r.takeWhile p).length →
      ∀ x ∈ r.take n, p x = true := by
  intro r
  induction r with
  | nil =>
    intro n _ x hx
    simp at hx
  | cons c t ih =>
    intro n hn x hx
    cases n with
    | zero => simp at hx
    | succ n =>
      rw [List.takeWhile_cons] at hn
      by_cases hc : p c
      · rw [if_pos hc] at hn
        simp only [List.length_cons] at hn
        simp only [List.take_succ_cons] at hx
        rcases List.mem_cons.mp hx with rfl | hx2
        · exact hc
        · exact ih n (by omega) x hx2
      · rw [if_neg hc] at hn
        simp at hn

theorem splitext_no_slash (l : List Char) : '/' ∉ (splitext l).2 := by
  unfold splitext
  simp only []
  split
  · rename_i hc
    obtain ⟨hc1, hc2⟩ := hc
    intro hmem
    rw [List.mem_reverse] at hmem
    have hp := @take_takeWhile_sat (fun c => c != '/') l.reverse
      ((l.reverse.takeWhile (fun c => c != '/')).findIdx (fun c => c == '.') + 1)
      (by omega) '/' hmem
    simp at hp
  · simp

theorem splitext_ext_head_ne_slash (l : List Char) :
    (splitext l).2.head? ≠ some '/' := by
  intro h
  apply splitext_no_slash l
  cases hx : (splitext l).2 with
  | nil => rw [hx] at h; simp at h
  | cons c t =>
    rw [hx] at h
    simp only [List.head?_cons, Option.some.injEq] at h
    subst h
    exact List.mem_cons_self '/' t

theorem savePathCand_head_eq (filename : List Char) (i j : Nat) :
    ((splitext filename).1 ++ '_' :: natDigits (i + 1) ++ (splitext filename).2).head? =
    ((splitext filename).1 ++ '_' :: natDigits (j + 1) ++ (splitext filename).2).head? := by
  cases hsp : (splitext filename).1 with
  | nil => simp
  | cons c t => simp

theorem savePathCand_zero (dir filename : List Char) :
    savePathCand dir filename 0 = joinPath dir filename := rfl

theorem savePathCand_succ (dir filename : List Char) (k : Nat) :
    savePathCand dir filename (k + 1) =
      joinPath dir ((splitext filename).1 ++ '_' :: natDigits (k + 1) ++
        (splitext filename).2) := rfl

theorem savePathCand_zero_ne (dir filename : List Char) (j : Nat) :
    savePathCand dir filename 0 ≠ savePathCand dir filename (j + 1) := by
  intro h
  rw [savePathCand_zero, savePathCand_succ] at h
  obtain ⟨nm, ex, hsp⟩ : ∃ nm ex, splitext filename = (nm, ex) := ⟨_, _, rfl⟩
  have hsp1 : (splitext filename).1 = nm := by rw [hsp]
  have hsp2 : (splitext filename).2 = ex := by rw [hsp]
  rw [hsp1, hsp2] at h
  have hfe : filename = nm ++ ex := by
    conv_lhs => rw [← splitext_append filename]
    rw [hsp1, hsp2]
  have hexh : ex.head? ≠ some '/' := by
    rw [← hsp2]
    exact splitext_ext_head_ne_slash filename
  have hiff : (filename.head? = some '/') ↔
      ((nm ++ '_' :: natDigits (j + 1) ++ ex).head? = some '/') := by
    cases nm with
    | nil =>
      rw [hfe]
      apply iff_of_false
      · intro hl
        rw [List.nil_append] at hl
        exact hexh hl
      · intro hr
        rw [List.nil_append, List.cons_append, List.head?_cons] at hr
        exact absurd hr (by decide)
    | cons c t =>
      rw [hfe]
      simp only [List.cons_append, List.head?_cons]
  have harg := joinPath_inj hiff h
  rw [hfe] at harg
  have h2 := List.append_cancel_right harg
  have hlen := congrArg List.length h2
  simp only [List.length_append, List.length_cons] at hlen
  omega

theorem savePathCand_inj (dir filename : List Char) :
    Function.Injective (savePathCand dir filename) := by
  intro i j h
  match i, j with
  | 0, 0 => rfl
  | 0, j + 1 => exact absurd h (savePathCand_zero_ne dir filename j)
  | i + 1, 0 => exact absurd h.symm (savePathCand_zero_ne dir filename i)
  | i + 1, j + 1 =>
    rw [savePathCand_succ, savePathCand_succ] at h
    have hhead := savePathCand_head_eq filename i j
    have harg := joinPath_inj (iff_of_eq (congrArg (fun o => o = some '/') hhead)) h
    have h2 := List.append_cancel_right harg
    have h3 := List.append_cancel_left h2
    injection h3 with h4 h5
    exact natDigits_inj h5

/-- Claim C5: `save_file` returns a path that did not exist before the call:
the chosen path is a candidate `savePathCand dir filename k` (the declared
path for `k = 0`, or the base name with numeric suffix `_k` before the
extension), every earlier candidate was already taken — the counter is
incremented until a free path is found — and the content is written to the
returned path. -/
theorem c5_save_file_unique (fs : FS) (dir filename content : List Char) :
    (save_file fs dir filename content).1 ∉ fs.paths ∧
    ((save_file fs dir filename content).2).files =
      fs.files ++ [((save_file fs dir filename content).1, content)] ∧
    ∃ k, (save_file fs dir filename content).1 = savePathCand dir filename k ∧
      ∀ j, j < k → savePathCand dir filename j ∈ fs.paths := by
  obtain ⟨m, hm, hfree⟩ := exists_free_cand fs.paths (savePathCand dir filename)
    (savePathCand_inj dir filename)
  have hspec := firstFreeAux_spec fs.paths (savePathCand dir filename)
    (fs.paths.length + 1) 0 ⟨m, hm, by simpa using hfree⟩
  unfold save_file
  refine ⟨hspec.1, rfl, ?_⟩
  exact ⟨firstFreeAux fs.paths (savePathCand dir filename) 0 (fs.paths.length + 1),
    rfl, fun j hj => hspec.2.2 j (Nat.zero_le _) hj⟩

end SDP
